import Mathlib

/-!
# Verification of the x402 payment gateway against its specification

Shallow embedding of the gateway's core components (payment middleware,
payment-error classifier, model-catalog cache, per-payer storage shard)
in Lean 4, with theorems settling the specification's claims.

Strings are modelled with Lean `String`; JavaScript `includes`,
`startsWith`, `trim`, `toUpperCase`, `toLowerCase` are modelled by
executable character-list functions below.  Timestamps (JS millisecond
epoch numbers) are modelled as `Int`.  JS `number` values that the code
only ever compares or adds exactly are modelled as `ℚ`; `BigInt` atomic
token amounts as `Int`.
-/

/-! ## String utilities (JS string primitive models) -/
/-- `listIsPrefixOfB p l` : `p` is a prefix of `l` (JS `startsWith` on char lists). -/
def listIsPrefixOfB : List Char → List Char → Bool
  | [], _ => true
  | _ :: _, [] => false
  | a :: as, b :: bs => a == b && listIsPrefixOfB as bs

/-- `listContainsB sub l` : `sub` occurs as a contiguous sublist of `l`
(JS `String.prototype.includes` on char lists). -/
def listContainsB (sub : List Char) : List Char → Bool
  | [] => listIsPrefixOfB sub []
  | l@(_ :: t) => listIsPrefixOfB sub l || listContainsB sub t

/-- JS `s.includes(sub)`. -/
def strContains (s sub : String) : Bool := listContainsB sub.toList s.toList

/-- JS `s.startsWith(p)`. -/
def strStartsWith (s p : String) : Bool := listIsPrefixOfB p.toList s.toList

/-- JS `s.toUpperCase()` (ASCII, which is all the source compares). -/
def strToUpper (s : String) : String := String.mk (s.toList.map Char.toUpper)

/-- JS `s.toLowerCase()` (ASCII, which is all the source compares). -/
def strToLower (s : String) : String := String.mk (s.toList.map Char.toLower)

/-- Whitespace characters removed by JS `String.prototype.trim`. -/
def isJsWs (c : Char) : Bool := c == ' ' || c == '\t' || c == '\n' || c == '\r'

/-- JS `s.trim()`. -/
def strTrim (s : String) : String :=
  String.mk (((s.toList.dropWhile isJsWs).reverse.dropWhile isJsWs).reverse)

/-! ## Payment-error classifier (`classifyPaymentError` in the middleware)

The x402 error-code constants live in the external `x402-stacks` library;
they are modelled as an inductive taxonomy. -/
inductive ErrorCode where
  | UnexpectedSettleError
  | InsufficientFunds
  | InvalidTransactionState
  | AmountInsufficient
  | InvalidPayload
  | RecipientMismatch
  | SenderMismatch
  deriving DecidableEq, Repr

structure ClassifiedError where
  code : ErrorCode
  message : String
  httpStatus : Nat
  retryAfter : Option Nat
  deriving DecidableEq, Repr

/-- `combined` string built by `classifyPaymentError`:
lower-cased error string, a space, and the lower-cased settle error reason
(empty when absent). -/
def combinedError (error : String) (settleErrorReason : Option String) : String :=
  strToLower error ++ " " ++ ((settleErrorReason.map strToLower).getD "")

def rowCondNetwork (c : String) : Bool :=
  strContains c "fetch" || strContains c "network" || strContains c "timeout"

def rowCondUnavailable (c : String) : Bool :=
  strContains c "503" || strContains c "unavailable"

def rowCondInsufficient (c : String) : Bool :=
  strContains c "insufficient" || strContains c "balance"

def rowCondExpired (c : String) : Bool :=
  strContains c "expired" || strContains c "nonce"

def rowCondAmountLow (c : String) : Bool :=
  strContains c "amount" && (strContains c "low" || strContains c "minimum")

def rowCondInvalid (c : String) : Bool :=
  strContains c "invalid" || strContains c "signature"

def rowCondRecipient (c : String) : Bool :=
  strContains c "recipient"

def rowCondBroadcast (c : String) : Bool :=
  strContains c "broadcast_failed" || strContains c "broadcast failed"

def rowCondTxFailed (c : String) : Bool :=
  strContains c "transaction_failed" || strContains c "transaction failed"

def rowCondTxPending (c : String) : Bool :=
  strContains c "transaction_pending" || strContains c "transaction pending"

def rowCondSender (c : String) : Bool :=
  strContains c "sender_mismatch" || strContains c "sender mismatch"

def rowCondScheme (c : String) : Bool :=
  strContains c "unsupported_scheme" || strContains c "unsupported scheme"

/-- Direct translation of `classifyPaymentError` from the middleware:
thirteen cases tried top to bottom over the combined error text. -/
def classifyPaymentError (error : String) (settleErrorReason : Option String) :
    ClassifiedError :=
  let combined := combinedError error settleErrorReason
  if rowCondNetwork combined then
    ⟨.UnexpectedSettleError, "Network error with settlement relay", 502, some 5⟩
  else if rowCondUnavailable combined then
    ⟨.UnexpectedSettleError, "Settlement relay temporarily unavailable", 503, some 30⟩
  else if rowCondInsufficient combined then
    ⟨.InsufficientFunds, "Insufficient funds in wallet", 402, none⟩
  else if rowCondExpired combined then
    ⟨.InvalidTransactionState, "Payment expired, please sign a new payment", 402, none⟩
  else if rowCondAmountLow combined then
    ⟨.AmountInsufficient, "Payment amount below minimum required", 402, none⟩
  else if rowCondInvalid combined then
    ⟨.InvalidPayload, "Invalid payment signature", 400, none⟩
  else if rowCondRecipient combined then
    ⟨.RecipientMismatch, "Payment recipient mismatch", 400, none⟩
  else if rowCondBroadcast combined then
    ⟨.UnexpectedSettleError, "Settlement relay broadcast failed, please retry", 502, some 5⟩
  else if rowCondTxFailed combined then
    ⟨.InvalidTransactionState, "Transaction failed in settlement relay", 402, none⟩
  else if rowCondTxPending combined then
    ⟨.InvalidTransactionState, "Transaction pending in settlement relay, please retry", 402, some 10⟩
  else if rowCondSender combined then
    ⟨.SenderMismatch, "Payment sender does not match expected address", 400, none⟩
  else if rowCondScheme combined then
    ⟨.InvalidPayload, "Unsupported payment scheme", 400, none⟩
  else
    ⟨.UnexpectedSettleError, "Payment processing error", 500, some 5⟩

/-- Tokens accepted by the gateway (`TokenType` in the source). -/
inductive TokenType where
  | STX
  | sBTC
  | USDCx
  deriving DecidableEq, Repr

/-- Configured network identity. -/
inductive Network where
  | mainnet
  | testnet
  deriving DecidableEq, Repr

/-- Pricing tier of an endpoint (`PricingTier` in the source). -/
inductive PricingTier where
  | free
  | standard
  | dynamic
  deriving DecidableEq, Repr

structure TokenContract where
  address : String
  name : String
  deriving DecidableEq, Repr

/-- `TOKEN_CONTRACTS` from the middleware: SIP-010 contracts for the two
bridged tokens on each network (`STX` is native and has none). -/
def TOKEN_CONTRACTS (n : Network) (t : TokenType) : Option TokenContract :=
  match n, t with
  | _, .STX => none
  | .mainnet, .sBTC => some ⟨"SM3VDXK3WZZSA84XXFKAFAF15NNZX32CTSG82JFQ4", "sbtc-token"⟩
  | .mainnet, .USDCx => some ⟨"SP120SBRBQJ00MCWS7TM5R8WJNTTKD5K0HFRC2CNE", "usdcx"⟩
  | .testnet, .sBTC => some ⟨"ST1F7QA2MDF17S807EPA36TSS8AMEFY4KA9TVGWXT", "sbtc-token"⟩
  | .testnet, .USDCx => some ⟨"ST1PQHQKV0RJXZFY1DGX8MNSNYVE3VGZJSRTPGZGM", "usdcx"⟩

/-- `networkToCAIP2` from the `x402-stacks` library (values as used by the
manifest generator in the source). -/
def networkToCAIP2 (n : Network) : String :=
  match n with
  | .mainnet => "stacks:1"
  | .testnet => "stacks:2147483648"

/-- `getAssetV2` from the middleware: the v2 asset string of a token. -/
def getAssetV2 (tokenType : TokenType) (network : Network) : String :=
  match tokenType with
  | .STX => "STX"
  | _ =>
    match TOKEN_CONTRACTS network tokenType with
    | some contract => contract.address ++ "." ++ contract.name
    | none => ""

/-- One row of the specification's error-classification taxonomy table:
a condition on the combined error text, and the outcome columns
(taxonomy code, HTTP status, `Retry-After`). -/
structure TaxonomyRow where
  cond : String → Bool
  code : ErrorCode
  message : String
  httpStatus : Nat
  retryAfter : Option Nat

/-- The taxonomy table, rows in the order the specification lists them.
The outcome columns (code / HTTP / Retry-After) are exactly the
specification table's. -/
def taxonomyTable : List TaxonomyRow :=
  [ ⟨rowCondNetwork, .UnexpectedSettleError, "Network error with settlement relay", 502, some 5⟩,
    ⟨rowCondUnavailable, .UnexpectedSettleError, "Settlement relay temporarily unavailable", 503, some 30⟩,
    ⟨rowCondInsufficient, .InsufficientFunds, "Insufficient funds in wallet", 402, none⟩,
    ⟨rowCondExpired, .InvalidTransactionState, "Payment expired, please sign a new payment", 402, none⟩,
    ⟨rowCondAmountLow, .AmountInsufficient, "Payment amount below minimum required", 402, none⟩,
    ⟨rowCondInvalid, .InvalidPayload, "Invalid payment signature", 400, none⟩,
    ⟨rowCondRecipient, .RecipientMismatch, "Payment recipient mismatch", 400, none⟩,
    ⟨rowCondBroadcast, .UnexpectedSettleError, "Settlement relay broadcast failed, please retry", 502, some 5⟩,
    ⟨rowCondTxFailed, .InvalidTransactionState, "Transaction failed in settlement relay", 402, none⟩,
    ⟨rowCondTxPending, .InvalidTransactionState, "Transaction pending in settlement relay, please retry", 402, some 10⟩,
    ⟨rowCondSender, .SenderMismatch, "Payment sender does not match expected address", 400, none⟩,
    ⟨rowCondScheme, .InvalidPayload, "Unsupported payment scheme", 400, none⟩ ]

/-- The default row of the taxonomy table (`UnexpectedSettle`, 500, 5). -/
def defaultTaxonomyRow : TaxonomyRow :=
  ⟨fun _ => true, .UnexpectedSettleError, "Payment processing error", 500, some 5⟩

def TaxonomyRow.outcome (row : TaxonomyRow) : ClassifiedError :=
  ⟨row.code, row.message, row.httpStatus, row.retryAfter⟩

/-- First-match semantics over the ordered taxonomy rows. -/
def firstMatchRow : List TaxonomyRow → String → TaxonomyRow
  | [], _ => defaultTaxonomyRow
  | row :: rest, c => if row.cond c then row else firstMatchRow rest c

/-- Classification according to the specification's table: rows tried in
listed order, default row when none matches. -/
def classifyByTable (c : String) : ClassifiedError :=
  (firstMatchRow taxonomyTable c).outcome

/-! ## Payment middleware (`x402Middleware`)

The pricing functions (`getFixedTierEstimate`, `estimateChatPayment`) live
in a pricing module that only produces the `PriceEstimate` consumed here;
the middleware model takes the estimate as an input.  Token-type string
validation is likewise factored out: the model takes the already-validated
`TokenType` selected via header or query (default native `STX`). -/
/-- The `PriceEstimate` fields the middleware reads. `amountInToken` is a
`BigInt` of atomic units, modelled as `Int`. -/
structure PriceEstimate where
  amountInToken : Int
  model : Option String
  estimatedInputTokens : Option Nat
  estimatedOutputTokens : Option Nat
  costWithMarginUsd : ℚ
  deriving DecidableEq, Repr

/-- The `extra` dictionary of a v2 payment requirement: tier/estimate
metadata, discriminated on fixed vs dynamic pricing. -/
inductive RequirementExtra where
  | fixedTier (tier : PricingTier)
  | dynamicEstimate (est : PriceEstimate)
  deriving DecidableEq, Repr

/-- A v2 payment requirement as built by the middleware.  `amount` holds
the atomic-unit value serialized as a decimal string in the JSON layer. -/
structure PaymentRequirementsV2 where
  scheme : String
  network : String
  amount : Int
  asset : String
  payTo : String
  maxTimeoutSeconds : Nat
  extra : RequirementExtra
  deriving DecidableEq, Repr

/-- The 402 challenge body and `payment-required` header content. -/
structure PaymentRequiredV2 where
  x402Version : Nat
  resourceUrl : String
  accepts : List PaymentRequirementsV2
  deriving DecidableEq, Repr

/-- Request context bound by the middleware for downstream handlers. -/
structure X402Context where
  payerAddress : String
  deriving DecidableEq, Repr

/-- Middleware configuration (`X402MiddlewareOptions` plus the defaults
`tier = "standard"`, `dynamic = false`). -/
structure MwOptions where
  tier : PricingTier
  dynamic : Bool
  deriving DecidableEq, Repr

/-- Process configuration the middleware reads. -/
structure MwEnv where
  serverAddress : Option String
  network : Network
  deriving DecidableEq, Repr

/-- The request features the middleware inspects before settlement. -/
structure MwRequest where
  tokenType : TokenType
  hasPaymentSignature : Bool
  path : String
  bodyOk : Bool
  deriving DecidableEq, Repr

/-- Outcome of the middleware up to (and excluding) the settlement call:
either it falls through to the handler (with or without a bound context),
answers with an error or a 402 challenge, or proceeds to settle a
presented payment against the built requirement. -/
inductive MwOutcome where
  | skipNoConfig
  | invalidJson
  | freeNext (ctx : X402Context)
  | challenge (pr : PaymentRequiredV2)
  | proceed (reqs : PaymentRequirementsV2)
  deriving DecidableEq, Repr

/-- Translation of `x402Middleware`'s pre-settlement control flow:
missing server address skips verification entirely (no context bound);
dynamic endpoints parse the body; free non-dynamic endpoints bind the
`"anonymous"` context; otherwise a single requirement for the selected
token is built (timeout 300 s) and either emitted as a 402 challenge
(no payment header) or carried to settlement. -/
def x402MiddlewareStep (o : MwOptions) (env : MwEnv) (req : MwRequest)
    (est : PriceEstimate) : MwOutcome :=
  match env.serverAddress with
  | none => .skipNoConfig
  | some addr =>
    if o.dynamic && !req.bodyOk then .invalidJson
    else if o.tier = .free && !o.dynamic then .freeNext ⟨"anonymous"⟩
    else
      let paymentRequirements : PaymentRequirementsV2 :=
        { scheme := "exact"
          network := networkToCAIP2 env.network
          amount := est.amountInToken
          asset := getAssetV2 req.tokenType env.network
          payTo := addr
          maxTimeoutSeconds := 300
          extra := if o.dynamic then .dynamicEstimate est else .fixedTier o.tier }
      if !req.hasPaymentSignature then
        .challenge { x402Version := 2, resourceUrl := req.path,
                     accepts := [paymentRequirements] }
      else .proceed paymentRequirements

/-- `BaseEndpoint.getPayerAddress`: the payer from the bound context, or
none when no context was bound (or its payer is the empty string, which
is falsy in the source). -/
def getPayerAddress (ctx : Option X402Context) : Option String :=
  match ctx with
  | some c => if c.payerAddress ≠ "" then some c.payerAddress else none
  | none => none

/-- `BaseEndpoint.getStorageDO`: the name keying the payer's storage
shard (`idFromName(payerAddress)`), or none without a payer. -/
def getStorageDO (ctx : Option X402Context) : Option String :=
  getPayerAddress ctx

/-- `getTimeoutForTier` from the discovery-manifest generator
(`x402-schema.ts`): 120 s for dynamic tiers, 60 s otherwise.  This is the
only place in the source carrying the 120/60 per-tier timeouts. -/
def getTimeoutForTier (tier : PricingTier) : Nat :=
  match tier with
  | .dynamic => 120
  | _ => 60

/-! ## Claims C1, C3, C10 — challenge structure, timeouts, identity binding -/
/-- The accepts list of a 402 challenge outcome, if the outcome is one. -/
def challengeAccepts : MwOutcome → Option (List PaymentRequirementsV2)
  | .challenge pr => some pr.accepts
  | _ => none

/-- The request context bound by the middleware before any settlement
call (only the free-tier path binds one pre-settlement). -/
def preSettleContext : MwOutcome → Option X402Context
  | .freeNext ctx => some ctx
  | _ => none

/-! ## Model catalog cache (`bazaar/index.ts`)

The cache state is the triple of module-level variables; timestamps are JS
millisecond epoch values (`Int`).  `parseFloat` results are modelled as
`Option ℚ` (`none` for a non-finite parse). -/
structure ModelPricing where
  promptPer1k : ℚ
  completionPer1k : ℚ
  deriving DecidableEq, Repr

/-- One model entry of the upstream catalog response, with its per-token
prices already passed through `parseFloat`. -/
structure CatalogEntry where
  id : String
  promptPerToken : Option ℚ
  completionPerToken : Option ℚ
  deriving DecidableEq, Repr

/-- JS `Map.set`: replace the value at an existing key in place, else
append the new binding. -/
def assocSet (k : String) (v : ModelPricing) :
    List (String × ModelPricing) → List (String × ModelPricing)
  | [] => [(k, v)]
  | (k', v') :: rest =>
    if k' = k then (k, v) :: rest else (k', v') :: assocSet k v rest

/-- JS `Map.get`. -/
def lookupReg : List (String × ModelPricing) → String → Option ModelPricing
  | [], _ => none
  | (k, v) :: rest, id => if k = id then some v else lookupReg rest id

/-- The module-level mutable cache of the model-cache service. -/
structure ModelCacheState where
  registry : List (String × ModelPricing)
  fetchedAt : Option Int
  lastFailedAt : Option Int
  deriving DecidableEq, Repr

def CACHE_TTL_MS : Int := 3600000

def RETRY_BACKOFF_MS : Int := 30000

/-- Translation of `isCacheStale`: the failure backoff is consulted only
inside the empty-or-never-fetched branch. -/
def isCacheStale (now : Int) (s : ModelCacheState) : Bool :=
  if s.fetchedAt.isNone || s.registry.isEmpty then
    if (match s.lastFailedAt with
        | some t => decide (now - t < RETRY_BACKOFF_MS)
        | none => false) then
      false
    else true
  else
    match s.fetchedAt with
    | some t => decide (now - t > CACHE_TTL_MS)
    | none => false

/-- The per-1K pricing derived from a catalog entry, or `none` when the
entry is discarded (non-finite or negative price), mirroring `doRefresh`'s
in-loop filter. -/
def perKEntry (e : CatalogEntry) : Option ModelPricing :=
  match e.promptPerToken, e.completionPerToken with
  | some p, some c =>
    if p * 1000 < 0 || c * 1000 < 0 then none
    else some ⟨p * 1000, c * 1000⟩
  | _, _ => none

/-- Translation of `doRefresh`: the fetch result is the input (exception
or catalog list).  On success the registry is cleared and repopulated from
the filtered entries and the success time recorded; on failure only the
failure time is recorded. -/
def doRefresh (now : Int) (s : ModelCacheState)
    (fetched : Except String (List CatalogEntry)) : ModelCacheState :=
  match fetched with
  | .error _ => { s with lastFailedAt := some now }
  | .ok entries =>
    let registry := entries.foldl
      (fun acc e =>
        match perKEntry e with
        | some pr => assocSet e.id pr acc
        | none => acc) []
    { registry := registry, fetchedAt := some now, lastFailedAt := none }

inductive ModelLookupResult where
  | valid (pricing : Option ModelPricing)
  | invalid (error : String)
  deriving DecidableEq, Repr

/-- Translation of `lookupModel`: refresh the cache iff `isCacheStale`,
then resolve the model permissively.  The middle component reports
whether a refresh was triggered. -/
def lookupModel (now : Int) (modelId : String) (s : ModelCacheState)
    (fetched : Except String (List CatalogEntry)) :
    ModelCacheState × Bool × ModelLookupResult :=
  let refresh := isCacheStale now s
  let s' := if refresh then doRefresh now s fetched else s
  if s'.registry.isEmpty then (s', refresh, .valid none)
  else
    match lookupReg s'.registry modelId with
    | none => (s', refresh,
        .invalid ("Model \"" ++ modelId ++ "\" not found in OpenRouter model registry"))
    | some p => (s', refresh, .valid (some p))

/-- The refresh-trigger rule as the specification words it (refresh when
the cache is empty or `now − last_success > TTL`, unless
`now − last_failure < RETRY_BACKOFF`), stated from the spec's words to be
compared against the source's `isCacheStale`. -/
def specRefreshRule (now : Int) (s : ModelCacheState) : Bool :=
  (s.registry.isEmpty ||
    (match s.fetchedAt with
     | none => true
     | some t => decide (now - t > CACHE_TTL_MS))) &&
  !(match s.lastFailedAt with
    | some f => decide (now - f < RETRY_BACKOFF_MS)
    | none => false)

/-! ## Per-payer SQL sandbox (`StorageDO.sqlQuery` / `StorageDO.sqlExecute`)

The guards are translated from the source; the SQL engine itself
(Cloudflare's embedded SQLite) is modelled for the simple statement forms
exercised here: an abstract database of named tables with opaque rows. -/
def DANGEROUS_KEYWORDS : List String :=
  ["DROP", "DELETE", "INSERT", "UPDATE", "CREATE", "ALTER", "PRAGMA"]

def SYSTEM_TABLES : List String :=
  ["KV", "PASTES", "LOCKS", "JOBS", "MEMORIES", "CONTENT_SCANS"]

/-- `sqlQuery`'s guard: the error thrown before execution, if any.
Mirrors the source: normalized (trimmed, upper-cased) text must start
with `SELECT` and contain no dangerous keyword. -/
def sqlQueryCheck (query : String) : Option String :=
  let normalizedQuery := strToUpper (strTrim query)
  if !(strStartsWith normalizedQuery "SELECT") then
    some "Only SELECT queries are allowed"
  else
    match DANGEROUS_KEYWORDS.find? (fun kw => strContains normalizedQuery kw) with
    | some kw => some ("Query contains forbidden keyword: " ++ kw)
    | none => none

/-- `sqlExecute`'s guard: rejects `DROP`/`ALTER` statements naming a
reserved system table, and `PRAGMA` assignments. -/
def sqlExecuteCheck (query : String) : Option String :=
  let normalizedQuery := strToUpper (strTrim query)
  match SYSTEM_TABLES.find?
      (fun t => (strContains normalizedQuery "DROP" ||
                 strContains normalizedQuery "ALTER") &&
                strContains normalizedQuery t) with
  | some t => some ("Cannot modify system table: " ++ strToLower t)
  | none =>
    if strStartsWith normalizedQuery "PRAGMA" && strContains normalizedQuery "=" then
      some "Cannot modify PRAGMA settings"
    else none

/-- Abstract per-payer database: named tables holding opaque rows. -/
abbrev SqlDb := List (String × List String)

def dbRows (db : SqlDb) (t : String) : List String :=
  match db with
  | [] => []
  | (name, rows) :: rest => if name = t then rows else dbRows rest t

def dbSetTable (db : SqlDb) (t : String) (rows : List String) : SqlDb :=
  match db with
  | [] => [(t, rows)]
  | (name, r) :: rest =>
    if name = t then (name, rows) :: rest else (name, r) :: dbSetTable rest t rows

/-- The simple statement forms used to exercise the sandbox. -/
inductive MiniSql where
  | selectAll (table : String)
  | deleteAll (table : String)
  | dropTable (table : String)
  | insertRow (table : String) (row : String)
  deriving DecidableEq, Repr

/-- The SQL text of a statement, as a client would submit it. -/
def MiniSql.render : MiniSql → String
  | .selectAll t => "SELECT * FROM " ++ t
  | .deleteAll t => "DELETE FROM " ++ t
  | .dropTable t => "DROP TABLE " ++ t
  | .insertRow t r => "INSERT INTO " ++ t ++ " VALUES ('" ++ r ++ "')"

/-- SQLite semantics of the statement forms: resulting database, result
rows, and rows written. -/
def MiniSql.run : MiniSql → SqlDb → SqlDb × List String × Nat
  | .selectAll t, db => (db, dbRows db t, 0)
  | .deleteAll t, db => (dbSetTable db t [], [], (dbRows db t).length)
  | .dropTable t, db => (db.filter (fun p => !(p.1 == t)), [], 0)
  | .insertRow t r, db => (dbSetTable db t (dbRows db t ++ [r]), [], 1)

/-- `StorageDO.sqlQuery`: guard, then execute and return the rows. -/
def sqlQuery (stmt : MiniSql) (db : SqlDb) : Except String (SqlDb × List String) :=
  match sqlQueryCheck stmt.render with
  | some e => .error e
  | none =>
    let (db', rows, _) := stmt.run db
    .ok (db', rows)

/-- `StorageDO.sqlExecute`: guard, then execute and report rows written. -/
def sqlExecute (stmt : MiniSql) (db : SqlDb) : Except String (SqlDb × Nat) :=
  match sqlExecuteCheck stmt.render with
  | some e => .error e
  | none =>
    let (db', _, written) := stmt.run db
    .ok (db', written)

/-! ## Distributed locks (`StorageDO.syncLock`)

Lock expiry times are ISO-8601 strings in the source, compared as dates;
same-format ISO strings compare lexicographically exactly as their
instants, so times are modelled as `Int` milliseconds.  The random token
generator is modelled with an explicit generator function. -/
/-- `ID_CHARS` from the source. -/
def ID_CHARS : List Char :=
  "abcdefghijklmnopqrstuvwxyzABCDEFGHIJKLMNOPQRSTUVWXYZ0123456789".toList

/-- `generateRandomString`: `len` draws from `ID_CHARS` after the fixed
leading text, with `rng i` the i-th random draw. -/
def generateRandomString (rng : Nat → Nat) (len : Nat) (pre : String) : String :=
  pre ++ String.mk ((List.range len).map (fun i => ID_CHARS.getD (rng i % ID_CHARS.length) 'a'))

structure LockRow where
  name : String
  token : String
  expiresAt : Int
  acquiredAt : Int
  deriving DecidableEq, Repr

/-- `cleanupExpiredLocks`: delete rows with `expires_at < now`. -/
def cleanupExpiredLocks (now : Int) (locks : List LockRow) : List LockRow :=
  locks.filter (fun r => !(decide (r.expiresAt < now)))

structure LockResult where
  acquired : Bool
  token : Option String
  expiresAt : Option Int
  heldUntil : Option Int
  deriving DecidableEq, Repr

/-- Translation of `StorageDO.syncLock`: sweep expired rows, clamp the
ttl into [10,300] s, then acquire iff no row for the name is unexpired,
replacing any expired leftover row. -/
def syncLock (now : Int) (rng : Nat → Nat) (name : String) (ttlOpt : Option Int)
    (locks : List LockRow) : List LockRow × LockResult :=
  let cleaned := cleanupExpiredLocks now locks
  let ttl := min (max (ttlOpt.getD 60) 10) 300
  let expiresAt := now + ttl * 1000
  match cleaned.find? (fun r => r.name == name) with
  | some lock =>
    if now < lock.expiresAt then
      (cleaned, ⟨false, none, none, some lock.expiresAt⟩)
    else
      let remaining := cleaned.filter (fun r => !(r.name == name))
      let token := generateRandomString rng 32 ""
      (remaining ++ [⟨name, token, expiresAt, now⟩],
       ⟨true, some token, some expiresAt, none⟩)
  | none =>
    let token := generateRandomString rng 32 ""
    (cleaned ++ [⟨name, token, expiresAt, now⟩],
     ⟨true, some token, some expiresAt, none⟩)

/-! ## Stable sorting (model of SQLite ORDER BY over a table scan and of
JS `Array.prototype.sort`, both of which keep ties in encounter order) -/
/-- Insert `x` after every element `y` with `r y x` (so ties keep their
original order). -/
def insertBy (r : α → α → Bool) (x : α) : List α → List α
  | [] => [x]
  | y :: ys => if r y x then y :: insertBy r x ys else x :: y :: ys

/-- Stable sort by repeated insertion, preserving encounter order of
tied elements. -/
def sortByStable (r : α → α → Bool) (l : List α) : List α :=
  l.foldl (fun acc x => insertBy r x acc) []

/-! ## Priority queue (`StorageDO.queuePush` / `StorageDO.queuePop`)

Rows of the `jobs` table, in rowid (insertion) order; timestamps are
`Int` milliseconds (the ISO strings of the source compare identically). -/
structure JobRow where
  id : String
  queue : String
  payload : String
  priority : Int
  status : String
  attempt : Nat
  maxAttempts : Nat
  availableAt : Int
  visibilityTimeout : Option Int
  createdAt : Int
  updatedAt : Int
  deriving DecidableEq, Repr

/-- `cleanupVisibilityTimeouts`: processing jobs of the queue whose
visibility window elapsed return to pending with one more attempt
(`NULL` visibility compares false in SQL). -/
def cleanupVisibilityTimeouts (now : Int) (queue : String)
    (jobs : List JobRow) : List JobRow :=
  jobs.map (fun j =>
    if j.queue == queue && j.status == "processing" &&
        (match j.visibilityTimeout with
         | some v => decide (v < now)
         | none => false) then
      { j with status := "pending", visibilityTimeout := none,
               updatedAt := now, attempt := j.attempt + 1 }
    else j)

/-- `queuePush`: one `INSERT` per item, all sharing the same call
timestamp for `available_at`, `created_at` and `updated_at`; generated
job ids are supplied by the `ids` list. -/
def queuePush (now : Int) (ids : List String) (queue : String)
    (items : List String) (priority : Int) (jobs : List JobRow) :
    List JobRow × Nat :=
  (jobs ++ (ids.zip items).map (fun p =>
      ⟨p.1, queue, p.2, priority, "pending", 0, 3, now, none, now, now⟩),
   items.length)

/-- `ORDER BY priority DESC, created_at ASC` as a precedence test:
`a` may come before `b`. -/
def popPrecede (a b : JobRow) : Bool :=
  decide (b.priority < a.priority) ||
    (a.priority == b.priority && decide (a.createdAt ≤ b.createdAt))

/-- The pending rows of the queue eligible for popping at `now`. -/
def pendingRows (now : Int) (queue : String) (jobs : List JobRow) :
    List JobRow :=
  (cleanupVisibilityTimeouts now queue jobs).filter
    (fun j => j.queue == queue && j.status == "pending" &&
              decide (j.availableAt ≤ now))

/-- `queuePop`: hygiene sweep, select pending rows ordered by
`(priority DESC, created_at ASC)` limited to the clamped count, delete
them, and return them.  Returns (new table, popped rows). -/
def queuePop (now : Int) (queue : String) (count : Int)
    (jobs : List JobRow) : List JobRow × List JobRow :=
  let cleaned := cleanupVisibilityTimeouts now queue jobs
  let safeCount := (min (max count 1) 100).toNat
  let selected := (sortByStable popPrecede
      (cleaned.filter (fun j => j.queue == queue && j.status == "pending" &&
                                decide (j.availableAt ≤ now)))).take safeCount
  (cleaned.filter (fun j => !((selected.map (fun s => s.id)).contains j.id)),
   selected)

/-! ## Vector memory (`StorageDO.memorySearch` / `StorageDO.cosineSimilarity`)

The source computes `dot / (sqrt(normA) * sqrt(normB))` in floating
point.  A similarity value is represented exactly as the pair
`(num, msq)` denoting the real number `num / sqrt msq` with `msq > 0`
(the zero results of the guard cases are `(0, 1)`); comparisons are
decided by sign analysis and squaring, which is the real-number order. -/
/-- An exact representation of `num / sqrt msq` with `msq > 0`. -/
structure Sim where
  num : ℚ
  msq : ℚ
  pos : 0 < msq

/-- The literal `0` returned by the guard branches. -/
def Sim.zero : Sim := ⟨0, 1, one_pos⟩

/-- A plain number (such as the threshold) as a `Sim`. -/
def Sim.ofRat (t : ℚ) : Sim := ⟨t, 1, one_pos⟩

def dotProduct (a b : List ℚ) : ℚ := ((a.zip b).map (fun p => p.1 * p.2)).sum

def sumSquares (a : List ℚ) : ℚ := (a.map (fun x => x * x)).sum

/-- Translation of `StorageDO.cosineSimilarity`: 0 for different lengths,
0 when the magnitude product is zero, else the exact quotient
`dot / (sqrt normA * sqrt normB)` represented as `(dot, normA * normB)`. -/
def cosineSimilarity (a b : List ℚ) : Sim :=
  if a.length ≠ b.length then Sim.zero
  else
    if h : sumSquares a * sumSquares b = 0 then Sim.zero
    else
      ⟨dotProduct a b, sumSquares a * sumSquares b, by
        refine lt_of_le_of_ne (mul_nonneg ?_ ?_) (Ne.symm h) <;>
        · refine List.sum_nonneg ?_
          intro x hx
          rcases List.mem_map.mp hx with ⟨y, _, rfl⟩
          exact mul_self_nonneg y⟩

/-- Decides `x ≤ y` for the represented real values `num / sqrt msq`
by sign analysis and squaring. -/
def simLeB (x y : Sim) : Bool :=
  if x.num ≤ 0 then
    if 0 ≤ y.num then true
    else decide (y.num ^ 2 * x.msq ≤ x.num ^ 2 * y.msq)
  else
    if y.num ≤ 0 then false
    else decide (x.num ^ 2 * y.msq ≤ y.num ^ 2 * x.msq)

/-- The strict comparison `x < y` (JS `<` on the float values). -/
def simLtB (x y : Sim) : Bool := !simLeB y x

/-- The real value a `Sim` represents. -/
noncomputable def Sim.toReal (s : Sim) : ℝ := (s.num : ℝ) / Real.sqrt (s.msq : ℝ)

/-- A row of the `memories` table as read by `memorySearch`: the stored
embedding is `none` when the column is `NULL` or its JSON does not parse
(both are skipped by the scan). -/
structure MemoryRow where
  key : String
  content : String
  tags : Option String
  embedding : Option (List ℚ)
  expiresAt : Option Int
  deriving DecidableEq, Repr

/-- `cleanupExpired('memories')`. -/
def cleanupExpiredMemories (now : Int) (rows : List MemoryRow) : List MemoryRow :=
  rows.filter (fun r =>
    !(match r.expiresAt with
      | some e => decide (e < now)
      | none => false))

structure ScoredResult where
  id : String
  text : String
  similarity : Sim

/-- Translation of `StorageDO.memorySearch`: clean expired rows, score
every row with a stored embedding, drop scores below the threshold
(default 0.5), sort descending by similarity (JS stable sort) and
truncate to the clamped limit (default 10, max 100). -/
def memorySearch (now : Int) (queryEmbedding : List ℚ) (limitOpt : Option Nat)
    (thresholdOpt : Option ℚ) (rows : List MemoryRow) : List ScoredResult :=
  let cleaned := cleanupExpiredMemories now rows
  let limit := min (limitOpt.getD 10) 100
  let threshold := Sim.ofRat (thresholdOpt.getD (1/2))
  let scored := cleaned.filterMap (fun r =>
    match r.embedding with
    | none => none
    | some storedEmbedding =>
      let similarity := cosineSimilarity queryEmbedding storedEmbedding
      if simLtB similarity threshold then none
      else some ⟨r.key, r.content, similarity⟩)
  (sortByStable (fun a b => simLeB b.similarity a.similarity) scored).take limit

/-! ## Theorems -/

set_option maxHeartbeats 1600000 in
theorem classifyPaymentError_eq_table (e : String) (r : Option String) :
    classifyPaymentError e r = classifyByTable (combinedError e r) := by
  simp only [classifyPaymentError, classifyByTable, taxonomyTable, firstMatchRow,
    TaxonomyRow.outcome, defaultTaxonomyRow]
  by_cases h1 : rowCondNetwork (combinedError e r) = true <;> simp only [h1, if_true, if_false, Bool.false_eq_true]
  by_cases h2 : rowCondUnavailable (combinedError e r) = true <;> simp only [h2, if_true, if_false, Bool.false_eq_true]
  by_cases h3 : rowCondInsufficient (combinedError e r) = true <;> simp only [h3, if_true, if_false, Bool.false_eq_true]
  by_cases h4 : rowCondExpired (combinedError e r) = true <;> simp only [h4, if_true, if_false, Bool.false_eq_true]
  by_cases h5 : rowCondAmountLow (combinedError e r) = true <;> simp only [h5, if_true, if_false, Bool.false_eq_true]
  by_cases h6 : rowCondInvalid (combinedError e r) = true <;> simp only [h6, if_true, if_false, Bool.false_eq_true]
  by_cases h7 : rowCondRecipient (combinedError e r) = true <;> simp only [h7, if_true, if_false, Bool.false_eq_true]
  by_cases h8 : rowCondBroadcast (combinedError e r) = true <;> simp only [h8, if_true, if_false, Bool.false_eq_true]
  by_cases h9 : rowCondTxFailed (combinedError e r) = true <;> simp only [h9, if_true, if_false, Bool.false_eq_true]
  by_cases h10 : rowCondTxPending (combinedError e r) = true <;> simp only [h10, if_true, if_false, Bool.false_eq_true]
  by_cases h11 : rowCondSender (combinedError e r) = true <;> simp only [h11, if_true, if_false, Bool.false_eq_true]
  by_cases h12 : rowCondScheme (combinedError e r) = true <;> simp only [h12, if_true, if_false, Bool.false_eq_true]

/-- C2: the payment-error classifier is a pure function of the error string
and the settlement error reason; it agrees with first-match classification
over the specification's taxonomy table rows in their listed order.  In
particular a combined error text reaching the `tx pending` row (it matches
that row and none of the earlier ones) is classified
`InvalidTransactionState` with HTTP 402 and `Retry-After` 10, and a text
matching no row is classified `UnexpectedSettle` with HTTP 500 and
`Retry-After` 5. -/
theorem c2_classifyPaymentError_conforms_taxonomy :
    (∀ e r, classifyPaymentError e r = classifyByTable (combinedError e r)) ∧
    (∀ e r,
      rowCondTxPending (combinedError e r) = true →
      rowCondNetwork (combinedError e r) = false →
      rowCondUnavailable (combinedError e r) = false →
      rowCondInsufficient (combinedError e r) = false →
      rowCondExpired (combinedError e r) = false →
      rowCondAmountLow (combinedError e r) = false →
      rowCondInvalid (combinedError e r) = false →
      rowCondRecipient (combinedError e r) = false →
      rowCondBroadcast (combinedError e r) = false →
      rowCondTxFailed (combinedError e r) = false →
      (classifyPaymentError e r).code = ErrorCode.InvalidTransactionState ∧
      (classifyPaymentError e r).httpStatus = 402 ∧
      (classifyPaymentError e r).retryAfter = some 10) ∧
    (∀ e r,
      rowCondNetwork (combinedError e r) = false →
      rowCondUnavailable (combinedError e r) = false →
      rowCondInsufficient (combinedError e r) = false →
      rowCondExpired (combinedError e r) = false →
      rowCondAmountLow (combinedError e r) = false →
      rowCondInvalid (combinedError e r) = false →
      rowCondRecipient (combinedError e r) = false →
      rowCondBroadcast (combinedError e r) = false →
      rowCondTxFailed (combinedError e r) = false →
      rowCondTxPending (combinedError e r) = false →
      rowCondSender (combinedError e r) = false →
      rowCondScheme (combinedError e r) = false →
      (classifyPaymentError e r).code = ErrorCode.UnexpectedSettleError ∧
      (classifyPaymentError e r).httpStatus = 500 ∧
      (classifyPaymentError e r).retryAfter = some 5) := by
  refine ⟨classifyPaymentError_eq_table, ?_, ?_⟩
  · intro e r hp h1 h2 h3 h4 h5 h6 h7 h8 h9
    simp [classifyPaymentError, h1, h2, h3, h4, h5, h6, h7, h8, h9, hp]
  · intro e r h1 h2 h3 h4 h5 h6 h7 h8 h9 h10 h11 h12
    simp [classifyPaymentError, h1, h2, h3, h4, h5, h6, h7, h8, h9, h10, h11, h12]

/-- Witness for C2 at the concrete relay error `"transaction_pending"`. -/
theorem c2_witness :
    (classifyPaymentError "transaction_pending" none).code =
        ErrorCode.InvalidTransactionState ∧
    (classifyPaymentError "transaction_pending" none).httpStatus = 402 ∧
    (classifyPaymentError "transaction_pending" none).retryAfter = some 10 := by
  exact c2_classifyPaymentError_conforms_taxonomy.2.1 "transaction_pending" none
    (by decide) (by decide) (by decide) (by decide) (by decide) (by decide)
    (by decide) (by decide) (by decide) (by decide)

/-- C1 counterexample: a priced (standard-tier) request on mainnet with
native token selected and no payment headers yields a 402 challenge whose
accepts list has exactly one entry and contains no requirement for the
supported token `sBTC` — refuting "one requirement per supported token". -/
theorem c1_counterexample :
    challengeAccepts
        (x402MiddlewareStep ⟨.standard, false⟩
          ⟨some "SP2APIADDR", .mainnet⟩
          ⟨.STX, false, "/hashing/sha256", true⟩
          ⟨1000, none, none, none, 0⟩) ≠ none ∧
    ((challengeAccepts
        (x402MiddlewareStep ⟨.standard, false⟩
          ⟨some "SP2APIADDR", .mainnet⟩
          ⟨.STX, false, "/hashing/sha256", true⟩
          ⟨1000, none, none, none, 0⟩)).getD []).length = 1 ∧
    ((challengeAccepts
        (x402MiddlewareStep ⟨.standard, false⟩
          ⟨some "SP2APIADDR", .mainnet⟩
          ⟨.STX, false, "/hashing/sha256", true⟩
          ⟨1000, none, none, none, 0⟩)).getD []).all
      (fun r => !(r.asset == getAssetV2 TokenType.sBTC Network.mainnet)) = true := by
  refine ⟨?_, ?_, ?_⟩ <;> decide

/-- C1 (amended): a request without payment headers to a priced endpoint
returns a 402 whose accepts list contains exactly one requirement — the
one for the token selected via header/query (default native) — carrying
that token's asset and the quoted estimate amount (nonzero whenever the
estimate is); requirements for the other supported tokens are absent. -/
theorem c1_challenge_accepts_selected_token_only
    (o : MwOptions) (env : MwEnv) (req : MwRequest) (est : PriceEstimate)
    (addr : String) (haddr : env.serverAddress = some addr)
    (hfree : ¬ (o.tier = .free ∧ o.dynamic = false))
    (hbody : o.dynamic = true → req.bodyOk = true)
    (hsig : req.hasPaymentSignature = false) :
    ∃ pr, x402MiddlewareStep o env req est = .challenge pr ∧
      pr.accepts.length = 1 ∧
      ∀ r ∈ pr.accepts,
        r.asset = getAssetV2 req.tokenType env.network ∧
        r.amount = est.amountInToken ∧
        (est.amountInToken ≠ 0 → r.amount ≠ 0) := by
  unfold x402MiddlewareStep
  rw [haddr]
  have hdyn : (o.dynamic && !req.bodyOk) = false := by
    cases hd : o.dynamic with
    | false => simp
    | true => simp [hbody hd]
  rw [hdyn]
  have hfree' : (o.tier = PricingTier.free && !o.dynamic) = false := by
    rcases ht : o.tier <;> rcases hd : o.dynamic <;> simp_all
  rw [hfree']
  simp only [hsig, Bool.not_false, if_true, Bool.false_eq_true, if_false]
  refine ⟨_, rfl, rfl, ?_⟩
  intro r hr
  simp only [List.mem_singleton] at hr
  subst hr
  exact ⟨rfl, rfl, fun h => h⟩

/-- Witness for C1's amended theorem at concrete inputs. -/
theorem c1_witness :
    ∃ pr, x402MiddlewareStep ⟨.standard, false⟩ ⟨some "SP2APIADDR", .mainnet⟩
        ⟨.sBTC, false, "/hashing/sha256", true⟩ ⟨42, none, none, none, 0⟩ =
        .challenge pr ∧
      pr.accepts.length = 1 ∧
      ∀ r ∈ pr.accepts,
        r.asset = getAssetV2 TokenType.sBTC Network.mainnet ∧
        r.amount = 42 ∧ ((42 : Int) ≠ 0 → r.amount ≠ 0) :=
  c1_challenge_accepts_selected_token_only
    ⟨.standard, false⟩ ⟨some "SP2APIADDR", .mainnet⟩
    ⟨.sBTC, false, "/hashing/sha256", true⟩ ⟨42, none, none, none, 0⟩
    "SP2APIADDR" rfl (by simp) (by simp) rfl

/-- C3 counterexample: the 402 challenge of a dynamic-tier endpoint does
not carry a 120 s timeout — every emitted requirement carries 300 s. -/
theorem c3_counterexample :
    challengeAccepts
        (x402MiddlewareStep ⟨.standard, true⟩
          ⟨some "SP2APIADDR", .mainnet⟩
          ⟨.STX, false, "/inference/openrouter/chat", true⟩
          ⟨5000, some "gpt", some 1, some 2, 0⟩) ≠ none ∧
    ((challengeAccepts
        (x402MiddlewareStep ⟨.standard, true⟩
          ⟨some "SP2APIADDR", .mainnet⟩
          ⟨.STX, false, "/inference/openrouter/chat", true⟩
          ⟨5000, some "gpt", some 1, some 2, 0⟩)).getD []).all
      (fun r => r.maxTimeoutSeconds == 120) = false ∧
    ((challengeAccepts
        (x402MiddlewareStep ⟨.standard, true⟩
          ⟨some "SP2APIADDR", .mainnet⟩
          ⟨.STX, false, "/inference/openrouter/chat", true⟩
          ⟨5000, some "gpt", some 1, some 2, 0⟩)).getD []).all
      (fun r => r.maxTimeoutSeconds == 300) = true := by
  refine ⟨?_, ?_, ?_⟩ <;> decide

/-- C3 (amended): every payment requirement emitted in a 402 challenge
carries `maxTimeoutSeconds = 300`, for dynamic and fixed tiers alike; the
per-tier 120 s / 60 s timeouts are those of the discovery-manifest
generator's `getTimeoutForTier`, not of the 402 challenge. -/
theorem c3_challenge_timeout_300
    (o : MwOptions) (env : MwEnv) (req : MwRequest) (est : PriceEstimate)
    (pr : PaymentRequiredV2)
    (h : x402MiddlewareStep o env req est = .challenge pr) :
    (∀ r ∈ pr.accepts, r.maxTimeoutSeconds = 300) ∧
    getTimeoutForTier .dynamic = 120 ∧ getTimeoutForTier .standard = 60 := by
  refine ⟨?_, rfl, rfl⟩
  unfold x402MiddlewareStep at h
  rcases env with ⟨addr?, net⟩
  rcases addr? with _ | addr
  · simp at h
  · simp only at h
    split at h
    · simp at h
    · split at h
      · simp at h
      · split at h
        · rcases h with ⟨⟩
          intro r hr
          simp only [List.mem_singleton] at hr
          subst hr
          rfl
        · simp at h

/-- Witness for C3's amended theorem at concrete inputs. -/
theorem c3_witness :
    (∀ r ∈ (PaymentRequiredV2.mk 2 "/inference/openrouter/chat"
        [{ scheme := "exact", network := "stacks:1", amount := 5000,
           asset := "STX", payTo := "SP2APIADDR", maxTimeoutSeconds := 300,
           extra := .dynamicEstimate ⟨5000, some "gpt", some 1, some 2, 0⟩ }]).accepts,
      r.maxTimeoutSeconds = 300) ∧
    getTimeoutForTier .dynamic = 120 ∧ getTimeoutForTier .standard = 60 :=
  c3_challenge_timeout_300 ⟨.standard, true⟩ ⟨some "SP2APIADDR", .mainnet⟩
    ⟨.STX, false, "/inference/openrouter/chat", true⟩
    ⟨5000, some "gpt", some 1, some 2, 0⟩ _ rfl

/-- C10 counterexample: with no server address configured the middleware
skips verification without binding any request context, so the shard
accessor yields none — not the `"anonymous"` shard the claim asserts. -/
theorem c10_counterexample :
    x402MiddlewareStep ⟨.free, false⟩ ⟨none, .mainnet⟩
        ⟨.STX, false, "/storage/kv", true⟩ ⟨0, none, none, none, 0⟩ =
      .skipNoConfig ∧
    getStorageDO (preSettleContext
      (x402MiddlewareStep ⟨.free, false⟩ ⟨none, .mainnet⟩
        ⟨.STX, false, "/storage/kv", true⟩ ⟨0, none, none, none, 0⟩)) = none ∧
    getStorageDO (preSettleContext
      (x402MiddlewareStep ⟨.free, false⟩ ⟨none, .mainnet⟩
        ⟨.STX, false, "/storage/kv", true⟩ ⟨0, none, none, none, 0⟩)) ≠
      some "anonymous" := by
  refine ⟨rfl, rfl, ?_⟩ ; decide

/-- C10 (amended): every request that passes the middleware on a free,
non-dynamic tier is bound to the fixed payer identity `"anonymous"`, so
all unpaid callers of such endpoints share the single storage shard keyed
`"anonymous"`; when no server address is configured the middleware skips
verification without binding any context, and the shard accessor returns
none. -/
theorem c10_anonymous_binding
    (o : MwOptions) (env : MwEnv) (req : MwRequest) (est : PriceEstimate) :
    (∀ addr, env.serverAddress = some addr → o.tier = .free → o.dynamic = false →
      ∃ ctx, x402MiddlewareStep o env req est = .freeNext ctx ∧
        ctx.payerAddress = "anonymous" ∧
        getStorageDO (some ctx) = some "anonymous") ∧
    (env.serverAddress = none →
      x402MiddlewareStep o env req est = .skipNoConfig ∧
      getStorageDO (preSettleContext (x402MiddlewareStep o env req est)) = none) := by
  constructor
  · intro addr haddr htier hdyn
    refine ⟨⟨"anonymous"⟩, ?_, rfl, by decide⟩
    unfold x402MiddlewareStep
    rw [haddr]
    simp [hdyn, htier]
  · intro haddr
    unfold x402MiddlewareStep
    rw [haddr]
    exact ⟨rfl, rfl⟩

/-- Witness for C10's amended theorem at concrete inputs. -/
theorem c10_witness :
    ∃ ctx, x402MiddlewareStep ⟨.free, false⟩ ⟨some "SP2APIADDR", .testnet⟩
        ⟨.STX, true, "/storage/kv", true⟩ ⟨0, none, none, none, 0⟩ =
        .freeNext ctx ∧
      ctx.payerAddress = "anonymous" ∧
      getStorageDO (some ctx) = some "anonymous" :=
  (c10_anonymous_binding ⟨.free, false⟩ ⟨some "SP2APIADDR", .testnet⟩
    ⟨.STX, true, "/storage/kv", true⟩ ⟨0, none, none, none, 0⟩).1
    "SP2APIADDR" rfl rfl rfl

/-- C4 counterexample: populated cache fetched at 0, TTL expired at
`now = 3 600 001`, a refresh failure recorded 1 ms ago — the spec's rule
suppresses the refresh (backoff), yet `isCacheStale` is true and the next
lookup does trigger a refresh. -/
theorem c4_counterexample :
    specRefreshRule 3600001
        ⟨[("m", ⟨1, 1⟩)], some 0, some 3600000⟩ = false ∧
    isCacheStale 3600001
        ⟨[("m", ⟨1, 1⟩)], some 0, some 3600000⟩ = true ∧
    (lookupModel 3600001 "m"
        ⟨[("m", ⟨1, 1⟩)], some 0, some 3600000⟩ (.ok [])).2.1 = true := by
  refine ⟨?_, ?_, ?_⟩ <;> decide

/-- C4 (amended): a lookup triggers a refresh exactly when `isCacheStale`
holds, and `isCacheStale` holds iff either the cache is empty or never
successfully fetched with no failed fetch in the last 30 s, or the cache
is populated and the last success is over 1 h old — in the latter
(TTL-expired) case the failure backoff is not consulted. -/
theorem c4_refresh_trigger_characterization (now : Int) (modelId : String)
    (s : ModelCacheState) (fetched : Except String (List CatalogEntry)) :
    (lookupModel now modelId s fetched).2.1 = isCacheStale now s ∧
    (isCacheStale now s = true ↔
      ((s.fetchedAt = none ∨ s.registry = []) ∧
        ¬ ∃ t, s.lastFailedAt = some t ∧ now - t < RETRY_BACKOFF_MS) ∨
      (∃ u, s.fetchedAt = some u ∧ s.registry ≠ [] ∧ now - u > CACHE_TTL_MS)) := by
  constructor
  · unfold lookupModel
    dsimp only
    repeat' first
      | rfl
      | split
  · rcases s with ⟨reg, fAt, lAt⟩
    rcases fAt with _ | u <;> rcases reg with _ | ⟨hd, tl⟩ <;>
      rcases lAt with _ | t <;>
        simp [isCacheStale, List.isEmpty]

/-- Witness for C4's amended theorem at concrete inputs. -/
theorem c4_witness :
    (lookupModel 50 "m" ⟨[], none, none⟩ (.ok [])).2.1 =
        isCacheStale 50 ⟨[], none, none⟩ ∧
    (isCacheStale 50 ⟨[], none, none⟩ = true ↔
      ((some (50 : Int) = some 50 ∨ True) ∧ True)) := by
  have h := c4_refresh_trigger_characterization 50 "m" ⟨[], none, none⟩ (.ok [])
  refine ⟨h.1, ?_⟩
  constructor
  · intro _ ; exact ⟨Or.inl rfl, trivial⟩
  · intro _
    exact h.2.mpr (Or.inl ⟨Or.inl rfl, by rintro ⟨t, ht, _⟩ ; cases ht⟩)

theorem lookupReg_assocSet (k id : String) (v : ModelPricing)
    (l : List (String × ModelPricing)) :
    (lookupReg (assocSet k v l) id).isSome ↔ id = k ∨ (lookupReg l id).isSome := by
  induction l with
  | nil =>
    by_cases h : k = id
    · simp [assocSet, lookupReg, h]
    · simp [assocSet, lookupReg, h, Ne.symm h]
  | cons hd tl ih =>
    rcases hd with ⟨k', v'⟩
    by_cases hk : k' = k
    · subst hk
      by_cases h : k' = id
      · simp [assocSet, lookupReg, h]
      · simp [assocSet, lookupReg, h, Ne.symm h]
    · by_cases h : k' = id
      · subst h
        simp [assocSet, lookupReg, hk]
      · simpa [assocSet, lookupReg, hk, h] using ih

/-- Key-membership of the registry rebuilt by `doRefresh`'s loop. -/
theorem lookupReg_refreshFold (entries : List CatalogEntry)
    (acc : List (String × ModelPricing)) (id : String) :
    (lookupReg
        (entries.foldl
          (fun acc e =>
            match perKEntry e with
            | some pr => assocSet e.id pr acc
            | none => acc) acc) id).isSome ↔
      (lookupReg acc id).isSome ∨
        ∃ e ∈ entries, e.id = id ∧ (perKEntry e).isSome := by
  induction entries generalizing acc with
  | nil => simp
  | cons hd tl ih =>
    simp only [List.foldl_cons]
    rcases hpk : perKEntry hd with _ | pr
    · rw [ih]
      simp [hpk]
    · rw [ih]
      simp only [lookupReg_assocSet, List.mem_cons]
      constructor
      · rintro (⟨h | h⟩ | h)
        · exact Or.inr ⟨hd, Or.inl rfl, h.symm, by simp [hpk]⟩
        · exact Or.inl h
        · rcases h with ⟨e, he, hid, hsome⟩
          exact Or.inr ⟨e, Or.inr he, hid, hsome⟩
      · rintro (h | ⟨e, he | he, hid, hsome⟩)
        · exact Or.inl (Or.inr h)
        · subst he
          exact Or.inl (Or.inl hid.symm)
        · exact Or.inr ⟨e, he, hid, hsome⟩

/-- C9: a model-catalog refresh is atomic with respect to failure — on a
failed or timed-out fetch the registry and success time are untouched and
only the failure time is recorded; on a successful fetch the success time
is recorded, the failure time cleared, and the registry replaced so that a
model id is present iff some fetched entry has that id and per-1k prices
that are finite and non-negative (all other entries discarded). -/
theorem c9_doRefresh_atomic (now : Int) (s : ModelCacheState) :
    (∀ err : String,
      (doRefresh now s (.error err)).registry = s.registry ∧
      (doRefresh now s (.error err)).fetchedAt = s.fetchedAt ∧
      (doRefresh now s (.error err)).lastFailedAt = some now) ∧
    (∀ entries : List CatalogEntry,
      (doRefresh now s (.ok entries)).fetchedAt = some now ∧
      (doRefresh now s (.ok entries)).lastFailedAt = none ∧
      (∀ id, (lookupReg (doRefresh now s (.ok entries)).registry id).isSome ↔
        ∃ e ∈ entries, e.id = id ∧ (perKEntry e).isSome)) ∧
    (∀ e : CatalogEntry,
      (perKEntry e).isSome ↔
        ∃ p c, e.promptPerToken = some p ∧ e.completionPerToken = some c ∧
          0 ≤ p * 1000 ∧ 0 ≤ c * 1000) := by
  refine ⟨fun err => ⟨rfl, rfl, rfl⟩, fun entries => ⟨rfl, rfl, fun id => ?_⟩, fun e => ?_⟩
  · have h := lookupReg_refreshFold entries [] id
    simp only [doRefresh]
    rw [h]
    simp [lookupReg]
  · rcases e with ⟨eid, p?, c?⟩
    rcases p? with _ | p <;> rcases c? with _ | c
    · simp [perKEntry]
    · simp [perKEntry]
    · simp [perKEntry]
    · simp only [perKEntry]
      split
      · rename_i hneg
        rw [Bool.or_eq_true, decide_eq_true_eq, decide_eq_true_eq] at hneg
        simp only [Option.isSome_none, Bool.false_eq_true, false_iff]
        rintro ⟨p', c', hp', hc', hp2, hc2⟩
        cases hp' ; cases hc'
        rcases hneg with h | h
        · exact absurd h (not_lt.mpr hp2)
        · exact absurd h (not_lt.mpr hc2)
      · rename_i hneg
        simp only [Bool.or_eq_true, decide_eq_true_eq, not_or] at hneg
        simp only [Option.isSome_some, true_iff]
        exact ⟨p, c, rfl, rfl, not_lt.mp hneg.1, not_lt.mp hneg.2⟩

/-- Witness for C9 at concrete inputs: one valid entry, one negative-price
entry (discarded), and the failure case. -/
theorem c9_witness :
    ((doRefresh 7 ⟨[("keep", ⟨1, 1⟩)], some 3, none⟩ (.error "boom")).registry =
        [("keep", ⟨1, 1⟩)] ∧
      (doRefresh 7 ⟨[("keep", ⟨1, 1⟩)], some 3, none⟩ (.error "boom")).fetchedAt =
        some 3 ∧
      (doRefresh 7 ⟨[("keep", ⟨1, 1⟩)], some 3, none⟩ (.error "boom")).lastFailedAt =
        some 7) ∧
    ((lookupReg (doRefresh 7 ⟨[("keep", ⟨1, 1⟩)], some 3, none⟩
        (.ok [⟨"good", some 2, some 3⟩, ⟨"bad", some (-1), some 3⟩])).registry
        "good").isSome ∧
      ¬ (lookupReg (doRefresh 7 ⟨[("keep", ⟨1, 1⟩)], some 3, none⟩
        (.ok [⟨"good", some 2, some 3⟩, ⟨"bad", some (-1), some 3⟩])).registry
        "bad").isSome) := by
  have h := c9_doRefresh_atomic 7 ⟨[("keep", ⟨1, 1⟩)], some 3, none⟩
  refine ⟨h.1 "boom", ?_, ?_⟩
  · exact ((h.2.1 [⟨"good", some 2, some 3⟩, ⟨"bad", some (-1), some 3⟩]).2.2 "good").mpr
      ⟨⟨"good", some 2, some 3⟩, by simp, rfl, by norm_num [perKEntry]⟩
  · intro hbad
    have := ((h.2.1 [⟨"good", some 2, some 3⟩, ⟨"bad", some (-1), some 3⟩]).2.2 "bad").mp hbad
    rcases this with ⟨e, he, hid, hsome⟩
    simp only [List.mem_cons, List.mem_singleton] at he
    rcases he with he | he | he
    · subst he ; simp at hid
    · subst he ; revert hsome ; norm_num [perKEntry]
    · cases he

/-- C5 counterexample: on a shard whose reserved `kv` table holds one row,
`SELECT * FROM kv` is accepted by the query sandbox and reads the reserved
table, and `DELETE FROM kv` is accepted by the execute sandbox and empties
it — refuting "any statement that reads or mutates one of these tables is
rejected and leaves the table unchanged". -/
theorem c5_counterexample :
    sqlQuery (.selectAll "kv") [("kv", ["row1"])] =
      .ok ([("kv", ["row1"])], ["row1"]) ∧
    sqlExecute (.deleteAll "kv") [("kv", ["row1"])] =
      .ok ([("kv", [])], 1) ∧
    dbRows [("kv", [])] "kv" ≠ dbRows [("kv", ["row1"])] "kv" := by
  refine ⟨rfl, rfl, by decide⟩

/-- C5 (amended): the sandbox guards enforce exactly the narrower rules
of the source — `sqlQuery` rejects (without executing) any statement not
starting with `SELECT` or containing a dangerous keyword, and
`sqlExecute` rejects any `DROP`/`ALTER` statement whose text names a
reserved system table as well as `PRAGMA` assignments; reserved tables
remain readable through `query` and mutable through other `execute`
statements. -/
theorem c5_sandbox_guard_characterization (stmt : MiniSql) (db : SqlDb) :
    (¬ strStartsWith (strToUpper (strTrim stmt.render)) "SELECT" = true →
      sqlQuery stmt db = .error "Only SELECT queries are allowed") ∧
    (∀ kw ∈ DANGEROUS_KEYWORDS,
      strContains (strToUpper (strTrim stmt.render)) kw = true →
      ∃ msg, sqlQuery stmt db = .error msg) ∧
    (∀ t ∈ SYSTEM_TABLES,
      (strContains (strToUpper (strTrim stmt.render)) "DROP" = true ∨
       strContains (strToUpper (strTrim stmt.render)) "ALTER" = true) →
      strContains (strToUpper (strTrim stmt.render)) t = true →
      ∃ msg, sqlExecute stmt db = .error msg) ∧
    (strStartsWith (strToUpper (strTrim stmt.render)) "PRAGMA" = true →
      strContains (strToUpper (strTrim stmt.render)) "=" = true →
      ∃ msg, sqlExecute stmt db = .error msg) := by
  refine ⟨?_, ?_, ?_, ?_⟩
  · intro h
    unfold sqlQuery sqlQueryCheck
    simp only [Bool.not_eq_true] at h
    simp [h]
  · intro kw hkw hcontains
    unfold sqlQuery
    rcases hchk : sqlQueryCheck stmt.render with _ | msg
    · exfalso
      unfold sqlQueryCheck at hchk
      dsimp only at hchk
      split at hchk
      · cases hchk
      · rcases hfind : DANGEROUS_KEYWORDS.find?
            (fun kw => strContains (strToUpper (strTrim stmt.render)) kw) with _ | kw'
        · exact absurd (List.find?_eq_none.mp hfind kw hkw) (by simp [hcontains])
        · rw [hfind] at hchk ; cases hchk
    · exact ⟨msg, rfl⟩
  · intro t ht hda hcontains
    unfold sqlExecute
    rcases hchk : sqlExecuteCheck stmt.render with _ | msg
    · exfalso
      unfold sqlExecuteCheck at hchk
      dsimp only at hchk
      rcases hfind : SYSTEM_TABLES.find?
          (fun t => (strContains (strToUpper (strTrim stmt.render)) "DROP" ||
                     strContains (strToUpper (strTrim stmt.render)) "ALTER") &&
                    strContains (strToUpper (strTrim stmt.render)) t) with _ | t'
      · have := List.find?_eq_none.mp hfind t ht
        rcases hda with h | h <;> simp [h, hcontains] at this
      · rw [hfind] at hchk ; cases hchk
    · exact ⟨msg, rfl⟩
  · intro hpragma heq
    unfold sqlExecute
    rcases hchk : sqlExecuteCheck stmt.render with _ | msg
    · exfalso
      unfold sqlExecuteCheck at hchk
      dsimp only at hchk
      rcases hfind : SYSTEM_TABLES.find?
          (fun t => (strContains (strToUpper (strTrim stmt.render)) "DROP" ||
                     strContains (strToUpper (strTrim stmt.render)) "ALTER") &&
                    strContains (strToUpper (strTrim stmt.render)) t) with _ | t'
      · rw [hfind] at hchk
        simp [hpragma, heq] at hchk
      · rw [hfind] at hchk ; cases hchk
    · exact ⟨msg, rfl⟩

/-- Witness for C5's amended theorem at concrete statements: `DROP TABLE
kv` is rejected by `execute`, and a non-`SELECT` text is rejected by
`query`. -/
theorem c5_witness :
    (∃ msg, sqlExecute (.dropTable "kv") [("kv", ["row1"])] = .error msg) ∧
    sqlQuery (.deleteAll "kv") [("kv", ["row1"])] =
      .error "Only SELECT queries are allowed" := by
  constructor
  · exact (c5_sandbox_guard_characterization (.dropTable "kv") [("kv", ["row1"])]).2.2.1
      "KV" (by decide) (Or.inl (by decide)) (by decide)
  · exact (c5_sandbox_guard_characterization (.deleteAll "kv") [("kv", ["row1"])]).1
      (by decide)

theorem generateRandomString_length (rng : Nat → Nat) (len : Nat) (pre : String) :
    (generateRandomString rng len pre).length = pre.length + len := by
  simp [generateRandomString]

/-- C6: `syncLock` acquires iff no unexpired row for the name exists
(expiry strictly after now); on acquisition it returns a fresh 32-char
token and an expiry of now plus the requested ttl clamped into
[10,300] seconds; otherwise it reports the current holder's expiry as
`heldUntil`.  Names are unique in the lock table (`name` is the primary
key). -/
theorem c6_syncLock_spec (now : Int) (rng : Nat → Nat) (name : String)
    (ttlOpt : Option Int) (locks : List LockRow)
    (huniq : locks.Pairwise (fun a b => a.name ≠ b.name)) :
    ((syncLock now rng name ttlOpt locks).2.acquired = true ↔
      ∀ r ∈ locks, r.name = name → r.expiresAt ≤ now) ∧
    ((syncLock now rng name ttlOpt locks).2.acquired = true →
      (∀ t, (syncLock now rng name ttlOpt locks).2.token = some t → t.length = 32) ∧
      (syncLock now rng name ttlOpt locks).2.token ≠ none ∧
      ∃ ttl, (syncLock now rng name ttlOpt locks).2.expiresAt = some (now + ttl * 1000) ∧
        ttl = min (max (ttlOpt.getD 60) 10) 300 ∧ 10 ≤ ttl ∧ ttl ≤ 300) ∧
    ((syncLock now rng name ttlOpt locks).2.acquired = false →
      ∃ r ∈ locks, r.name = name ∧ now < r.expiresAt ∧
        (syncLock now rng name ttlOpt locks).2.heldUntil = some r.expiresAt) := by
  have httl10 : (10 : Int) ≤ min (max (ttlOpt.getD 60) 10) 300 :=
    le_min (le_max_right _ _) (by norm_num)
  have httl300 : min (max (ttlOpt.getD 60) 10) 300 ≤ 300 := min_le_right _ _
  unfold syncLock
  rcases hfind : (cleanupExpiredLocks now locks).find? (fun r => r.name == name)
      with _ | lock
  · -- no surviving row for the name: acquisition
    simp only [hfind]
    refine ⟨?_, ?_, ?_⟩
    · simp only [true_iff]
      intro r hr hname
      by_contra hgt
      push_neg at hgt
      have hmem : r ∈ cleanupExpiredLocks now locks := by
        simp only [cleanupExpiredLocks, List.mem_filter]
        refine ⟨hr, ?_⟩
        simp only [Bool.not_eq_true', decide_eq_false_iff_not]
        omega
      have := List.find?_eq_none.mp hfind r hmem
      simp [hname] at this
    · intro _
      refine ⟨?_, by simp, min (max (ttlOpt.getD 60) 10) 300, rfl, rfl, httl10, httl300⟩
      intro t ht
      simp only [Option.some.injEq] at ht
      subst ht
      simpa using generateRandomString_length rng 32 ""
    · intro h ; simp at h
  · -- a surviving row exists
    have hmem : lock ∈ cleanupExpiredLocks now locks := List.mem_of_find?_eq_some hfind
    have hname : lock.name = name := by
      have := List.find?_some hfind
      simpa using this
    have hmem' : lock ∈ locks := (List.mem_filter.mp hmem).1
    have hunexpired : ¬ lock.expiresAt < now := by
      have := (List.mem_filter.mp hmem).2
      simpa using this
    simp only [hfind]
    by_cases hlive : now < lock.expiresAt
    · -- unexpired holder: not acquired
      rw [if_pos hlive]
      refine ⟨?_, ?_, ?_⟩
      · constructor
        · intro h ; simp at h
        · intro hall
          exact absurd (hall lock hmem' hname) (not_le.mpr hlive)
      · intro h ; simp at h
      · intro _
        exact ⟨lock, hmem', hname, hlive, rfl⟩
    · -- expired leftover row: replaced, acquired
      rw [if_neg hlive]
      refine ⟨?_, ?_, ?_⟩
      · simp only [true_iff]
        intro r hr hrname
        by_contra hgt
        push_neg at hgt
        have hrmem : r ∈ cleanupExpiredLocks now locks := by
          simp only [cleanupExpiredLocks, List.mem_filter]
          refine ⟨hr, ?_⟩
          simp only [Bool.not_eq_true', decide_eq_false_iff_not]
          omega
        have huniq' : (cleanupExpiredLocks now locks).Pairwise
            (fun a b => a.name ≠ b.name) :=
          huniq.sublist (List.filter_sublist locks)
        have hreq : r = lock := by
          by_contra hne
          have hsymm : Symmetric (fun a b : LockRow => a.name ≠ b.name) :=
            fun a b h he => h he.symm
          exact (huniq'.forall hsymm hrmem hmem hne) (hrname.trans hname.symm)
        subst hreq
        exact hlive hgt
      · intro _
        refine ⟨?_, by simp, min (max (ttlOpt.getD 60) 10) 300, rfl, rfl, httl10, httl300⟩
        intro t ht
        simp only [Option.some.injEq] at ht
        subst ht
        simpa using generateRandomString_length rng 32 ""
      · intro h ; simp at h

/-- Witness for C6 at a concrete empty lock table. -/
theorem c6_witness :
    ((syncLock 0 (fun i => i) "job" (some 500) []).2.acquired = true ↔
      ∀ r ∈ ([] : List LockRow), r.name = "job" → r.expiresAt ≤ 0) ∧
    (∀ t, (syncLock 0 (fun i => i) "job" (some 500) []).2.token = some t →
      t.length = 32) ∧
    (syncLock 0 (fun i => i) "job" (some 500) []).2.expiresAt = some 300000 := by
  have h := c6_syncLock_spec 0 (fun i => i) "job" (some 500) [] (by simp)
  have hacq : (syncLock 0 (fun i => i) "job" (some 500) []).2.acquired = true :=
    h.1.mpr (by intro r hr ; cases hr)
  refine ⟨h.1, (h.2.1 hacq).1, ?_⟩
  rcases (h.2.1 hacq).2.2 with ⟨ttl, hexp, httl, _, _⟩
  rw [hexp, httl]
  norm_num

theorem mem_insertBy (r : α → α → Bool) (x a : α) (l : List α) :
    a ∈ insertBy r x l ↔ a = x ∨ a ∈ l := by
  induction l with
  | nil => simp [insertBy]
  | cons y ys ih =>
    unfold insertBy
    split
    · simp only [List.mem_cons, ih]
      tauto
    · simp [List.mem_cons]

theorem pairwise_insertBy (r : α → α → Bool)
    (htot : ∀ a b, r a b = true ∨ r b a = true)
    (htrans : ∀ a b c, r a b = true → r b c = true → r a c = true)
    (x : α) (l : List α) (h : l.Pairwise (fun a b => r a b = true)) :
    (insertBy r x l).Pairwise (fun a b => r a b = true) := by
  induction l with
  | nil => simp [insertBy]
  | cons y ys ih =>
    rcases List.pairwise_cons.mp h with ⟨hy, hys⟩
    unfold insertBy
    split
    · rename_i hr
      refine List.pairwise_cons.mpr ⟨?_, ih hys⟩
      intro z hz
      rcases (mem_insertBy r x z ys).mp hz with rfl | hz
      · exact hr
      · exact hy z hz
    · rename_i hr
      refine List.pairwise_cons.mpr ⟨?_, h⟩
      intro z hz
      rcases List.mem_cons.mp hz with rfl | hz
      · rcases htot z x with h' | h'
        · exact absurd h' hr
        · exact h'
      · rcases htot y x with h' | h'
        · exact absurd h' hr
        · exact htrans x y z h' (hy z hz)

theorem pairwise_foldl_insertBy (r : α → α → Bool)
    (htot : ∀ a b, r a b = true ∨ r b a = true)
    (htrans : ∀ a b c, r a b = true → r b c = true → r a c = true)
    (l acc : List α) (h : acc.Pairwise (fun a b => r a b = true)) :
    (l.foldl (fun acc x => insertBy r x acc) acc).Pairwise
      (fun a b => r a b = true) := by
  induction l generalizing acc with
  | nil => exact h
  | cons x xs ih =>
    exact ih (insertBy r x acc) (pairwise_insertBy r htot htrans x acc h)

theorem pairwise_sortByStable (r : α → α → Bool)
    (htot : ∀ a b, r a b = true ∨ r b a = true)
    (htrans : ∀ a b c, r a b = true → r b c = true → r a c = true)
    (l : List α) :
    (sortByStable r l).Pairwise (fun a b => r a b = true) :=
  pairwise_foldl_insertBy r htot htrans l [] (by simp)

theorem filter_insertBy_of_false (r : α → α → Bool) (p : α → Bool) (x : α)
    (hpx : p x = false) (l : List α) :
    (insertBy r x l).filter p = l.filter p := by
  induction l with
  | nil => simp [insertBy, hpx]
  | cons y ys ih =>
    unfold insertBy
    split
    · simp only [List.filter_cons, ih]
    · simp only [List.filter_cons, hpx]
      simp

theorem filter_insertBy_of_true (r : α → α → Bool) (p : α → Bool) (x : α)
    (hpx : p x = true)
    (hties : ∀ y, p y = true → r y x = true)
    (htrans : ∀ a b c, r a b = true → r b c = true → r a c = true)
    (l : List α) (hsorted : l.Pairwise (fun a b => r a b = true)) :
    (insertBy r x l).filter p = l.filter p ++ [x] := by
  induction l with
  | nil => simp [insertBy, hpx]
  | cons y ys ih =>
    rcases List.pairwise_cons.mp hsorted with ⟨hy, hys⟩
    unfold insertBy
    split
    · rename_i h
      simp only [List.filter_cons, ih hys]
      by_cases hpy : p y = true <;> simp [hpy]
    · rename_i h
      simp only [List.filter_cons, hpx, if_true]
      have hnil : (y :: ys).filter p = [] := by
        rw [List.filter_eq_nil_iff]
        intro z hz
        rcases List.mem_cons.mp hz with rfl | hz
        · intro hpz
          exact h (hties z hpz)
        · intro hpz
          exact h (htrans y z x (hy z hz) (hties z hpz))
      rw [List.filter_cons] at hnil
      by_cases hpy : p y = true
      · simp [hpy] at hnil
      · simp only [hpy, Bool.false_eq_true, if_false] at hnil
        simp [hpy, hnil]

theorem filter_foldl_insertBy (r : α → α → Bool) (p : α → Bool)
    (hties : ∀ a b, p a = true → p b = true → r a b = true)
    (htot : ∀ a b, r a b = true ∨ r b a = true)
    (htrans : ∀ a b c, r a b = true → r b c = true → r a c = true)
    (l acc : List α) (hsorted : acc.Pairwise (fun a b => r a b = true)) :
    (l.foldl (fun acc x => insertBy r x acc) acc).filter p =
      acc.filter p ++ l.filter p := by
  induction l generalizing acc with
  | nil => simp
  | cons x xs ih =>
    simp only [List.foldl_cons]
    rw [ih (insertBy r x acc) (pairwise_insertBy r htot htrans x acc hsorted)]
    by_cases hpx : p x = true
    · rw [filter_insertBy_of_true r p x hpx (fun y hy => hties y x hy hpx) htrans acc hsorted]
      simp [List.filter_cons, hpx]
    · have hpx' : p x = false := by simpa using hpx
      rw [filter_insertBy_of_false r p x hpx']
      simp [List.filter_cons, hpx']

/-- Stability: elements that are pairwise tied under `r` keep their
original relative order through `sortByStable`. -/
theorem filter_sortByStable (r : α → α → Bool) (p : α → Bool)
    (hties : ∀ a b, p a = true → p b = true → r a b = true)
    (htot : ∀ a b, r a b = true ∨ r b a = true)
    (htrans : ∀ a b c, r a b = true → r b c = true → r a c = true)
    (l : List α) :
    (sortByStable r l).filter p = l.filter p := by
  have h := filter_foldl_insertBy r p hties htot htrans l [] (by simp)
  simpa [sortByStable] using h

theorem popPrecede_total (a b : JobRow) :
    popPrecede a b = true ∨ popPrecede b a = true := by
  simp only [popPrecede, Bool.or_eq_true, Bool.and_eq_true, decide_eq_true_eq,
    beq_iff_eq]
  omega

theorem popPrecede_trans (a b c : JobRow) (h1 : popPrecede a b = true)
    (h2 : popPrecede b c = true) : popPrecede a c = true := by
  simp only [popPrecede, Bool.or_eq_true, Bool.and_eq_true, decide_eq_true_eq,
    beq_iff_eq] at h1 h2 ⊢
  omega

/-- C7: `queuePop` returns pending items ordered by priority descending
then creation time ascending; for any priority-and-timestamp class the
popped rows appear in table (push) order, so equal-priority items pushed
at the same instant — in particular the rows of one `queuePush` call,
which all receive the same `created_at` — pop in FIFO order; and one
`queuePush` call appends its items in order, all stamped with the same
`created_at`. -/
theorem c7_queue_order_spec (now : Int) (queue : String) (count : Int)
    (jobs : List JobRow) (ids : List String) (items : List String)
    (priority : Int) :
    ((queuePop now queue count jobs).2.Pairwise
        (fun a b => popPrecede a b = true)) ∧
    (∀ p t, List.Sublist
      ((queuePop now queue count jobs).2.filter
        (fun j => j.priority == p && j.createdAt == t))
      ((pendingRows now queue jobs).filter
        (fun j => j.priority == p && j.createdAt == t))) ∧
    (∀ row ∈ (queuePush now ids queue items priority jobs).1.drop jobs.length,
      row.createdAt = now ∧ row.availableAt = now ∧ row.priority = priority ∧
        row.status = "pending") ∧
    ((queuePush now ids queue items priority jobs).1.take jobs.length = jobs) := by
  refine ⟨?_, ?_, ?_, ?_⟩
  · have h := pairwise_sortByStable popPrecede popPrecede_total popPrecede_trans
      ((cleanupVisibilityTimeouts now queue jobs).filter
        (fun j => j.queue == queue && j.status == "pending" &&
                  decide (j.availableAt ≤ now)))
    exact (h.sublist (List.take_sublist _ _))
  · intro p t
    have hstable := filter_sortByStable popPrecede
      (fun j => j.priority == p && j.createdAt == t)
      (by
        intro a b ha hb
        simp only [Bool.and_eq_true, beq_iff_eq] at ha hb
        simp only [popPrecede, Bool.or_eq_true, Bool.and_eq_true,
          decide_eq_true_eq, beq_iff_eq]
        omega)
      popPrecede_total popPrecede_trans
      ((cleanupVisibilityTimeouts now queue jobs).filter
        (fun j => j.queue == queue && j.status == "pending" &&
                  decide (j.availableAt ≤ now)))
    have hsub : List.Sublist
        ((queuePop now queue count jobs).2.filter
          (fun j => j.priority == p && j.createdAt == t))
        ((sortByStable popPrecede
            ((cleanupVisibilityTimeouts now queue jobs).filter
              (fun j => j.queue == queue && j.status == "pending" &&
                        decide (j.availableAt ≤ now)))).filter
          (fun j => j.priority == p && j.createdAt == t)) :=
      (List.take_sublist _ _).filter _
    rw [hstable] at hsub
    exact hsub
  · intro row hrow
    rw [queuePush] at hrow
    simp only [List.drop_left] at hrow
    rcases List.mem_map.mp hrow with ⟨pair, hpair, hre⟩
    subst hre
    exact ⟨rfl, rfl, rfl, rfl⟩
  · simp [queuePush]

/-- Witness for C7 at a concrete two-item push into an empty table. -/
theorem c7_witness :
    (queuePop 100 "q" 10 []).2.Pairwise (fun a b => popPrecede a b = true) ∧
    ((⟨"job_a", "q", "x", 5, "pending", 0, 3, 100, none, 100, 100⟩ : JobRow).createdAt
        = 100 ∧
      (⟨"job_a", "q", "x", 5, "pending", 0, 3, 100, none, 100, 100⟩ : JobRow).availableAt
        = 100 ∧
      (⟨"job_a", "q", "x", 5, "pending", 0, 3, 100, none, 100, 100⟩ : JobRow).priority
        = 5 ∧
      (⟨"job_a", "q", "x", 5, "pending", 0, 3, 100, none, 100, 100⟩ : JobRow).status
        = "pending") := by
  have h := c7_queue_order_spec 100 "q" 10 [] ["job_a", "job_b"] ["x", "y"] 5
  exact ⟨h.1, h.2.2.1
    ⟨"job_a", "q", "x", 5, "pending", 0, 3, 100, none, 100, 100⟩ (by decide)⟩

theorem sumSquares_nonneg (a : List ℚ) : 0 ≤ sumSquares a := by
  induction a with
  | nil => simp [sumSquares]
  | cons x xs ih =>
    simp only [sumSquares, List.map_cons, List.sum_cons]
    have := mul_self_nonneg x
    simp only [sumSquares] at ih
    linarith

theorem simLeB_total (x y : Sim) : simLeB x y = true ∨ simLeB y x = true := by
  unfold simLeB
  by_cases hx : x.num ≤ 0
  · by_cases h0y : 0 ≤ y.num
    · left ; simp [hx, h0y]
    · by_cases h0x : 0 ≤ x.num
      · right
        have hy : y.num ≤ 0 := le_of_not_le h0y
        simp [hy, h0x]
      · rcases le_total (y.num ^ 2 * x.msq) (x.num ^ 2 * y.msq) with h | h
        · left ; simp [hx, h0y, h]
        · right
          have hy : y.num ≤ 0 := le_of_not_le h0y
          simp [hy, h0x, h]
  · by_cases hy : y.num ≤ 0
    · right
      have h0x : 0 ≤ x.num := le_of_lt (lt_of_not_le hx)
      simp [hy, h0x]
    · rcases le_total (x.num ^ 2 * y.msq) (y.num ^ 2 * x.msq) with h | h
      · left ; simp [hx, hy, h]
      · right ; simp [hx, hy, h]

theorem simLeB_trans (x y z : Sim) (h1 : simLeB x y = true)
    (h2 : simLeB y z = true) : simLeB x z = true := by
  have hxm := x.pos
  have hym := y.pos
  have hzm := z.pos
  unfold simLeB at h1 h2 ⊢
  by_cases hx : x.num ≤ 0
  · by_cases h0z : 0 ≤ z.num
    · simp [hx, h0z]
    · have hz : z.num < 0 := lt_of_not_le h0z
      simp only [hx, if_true, h0z, if_false]
      by_cases hy : y.num ≤ 0
      · by_cases h0y : 0 ≤ y.num
        · -- y.num = 0, so h2 forces z.num = 0, contradiction
          have hy0 : y.num = 0 := le_antisymm hy h0y
          rw [hy0] at h2
          norm_num [h0z] at h2
          nlinarith [mul_pos (neg_pos.mpr hz) (neg_pos.mpr hz), mul_pos hym hzm]
        · simp only [hx, if_true, h0y, if_false, decide_eq_true_eq] at h1
          simp only [hy, if_true, h0z, if_false, decide_eq_true_eq] at h2
          simp only [decide_eq_true_eq]
          have hyneg : y.num < 0 := lt_of_not_le h0y
          nlinarith [sq_nonneg y.num, sq_nonneg z.num, sq_nonneg x.num,
            mul_pos hym hzm]
      · -- y.num > 0: h2 gives z.num ≤ 0 branch false, so z.num > 0, contra hz
        simp only [hy, if_false] at h2
        have hz' : z.num ≤ 0 := le_of_lt hz
        simp [hz'] at h2
  · -- x.num > 0: h1 forces y.num > 0, h2 forces z.num > 0
    have hxpos : 0 < x.num := lt_of_not_le hx
    by_cases hy : y.num ≤ 0
    · simp [hx, hy] at h1
    · by_cases hz : z.num ≤ 0
      · simp [hy, hz] at h2
      · simp only [hx, if_false, hy, if_false, decide_eq_true_eq] at h1
        simp only [hy, if_false, hz, if_false, decide_eq_true_eq] at h2
        simp only [hx, if_false, hz, if_false, decide_eq_true_eq]
        have hypos : 0 < y.num := lt_of_not_le hy
        nlinarith [sq_nonneg y.num, mul_pos hxm hzm, mul_pos hxm hym,
          mul_pos hym hzm]

/-- `simLeB` decides exactly the order of the represented real values,
so the model's threshold filter and sort order are the float program's. -/
theorem simLeB_iff_toReal (x y : Sim) :
    simLeB x y = true ↔ x.toReal ≤ y.toReal := by
  have hxm : (0:ℝ) < (x.msq : ℝ) := by exact_mod_cast x.pos
  have hym : (0:ℝ) < (y.msq : ℝ) := by exact_mod_cast y.pos
  have hsx : 0 < Real.sqrt (x.msq : ℝ) := Real.sqrt_pos.mpr hxm
  have hsy : 0 < Real.sqrt (y.msq : ℝ) := Real.sqrt_pos.mpr hym
  have hsx2 : Real.sqrt (x.msq : ℝ) ^ 2 = (x.msq:ℝ) := Real.sq_sqrt hxm.le
  have hsy2 : Real.sqrt (y.msq : ℝ) ^ 2 = (y.msq:ℝ) := Real.sq_sqrt hym.le
  rw [Sim.toReal, Sim.toReal, div_le_div_iff₀ hsx hsy]
  unfold simLeB
  by_cases hx : x.num ≤ 0
  · by_cases h0y : 0 ≤ y.num
    · simp only [hx, if_true, h0y, true_iff]
      have h1 : (x.num:ℝ) * Real.sqrt (y.msq : ℝ) ≤ 0 :=
        mul_nonpos_of_nonpos_of_nonneg (by exact_mod_cast hx) hsy.le
      have h2 : 0 ≤ (y.num:ℝ) * Real.sqrt (x.msq : ℝ) :=
        mul_nonneg (by exact_mod_cast h0y) hsx.le
      linarith
    · simp only [hx, if_true, h0y, if_false, decide_eq_true_eq]
      have hyneg : (y.num:ℝ) < 0 := by exact_mod_cast lt_of_not_le h0y
      have hxnp : (x.num:ℝ) ≤ 0 := by exact_mod_cast hx
      have hA : (0:ℝ) ≤ -(x.num:ℝ) * Real.sqrt (y.msq : ℝ) :=
        mul_nonneg (by linarith) hsy.le
      have hB : (0:ℝ) ≤ -(y.num:ℝ) * Real.sqrt (x.msq : ℝ) :=
        mul_nonneg (by linarith) hsx.le
      have hsq : (-(y.num:ℝ) * Real.sqrt (x.msq : ℝ)) ^ 2 = (y.num:ℝ)^2 * (x.msq:ℝ) := by
        rw [mul_pow, neg_pow]
        rw [hsx2]
        ring
      have hsq' : (-(x.num:ℝ) * Real.sqrt (y.msq : ℝ)) ^ 2 = (x.num:ℝ)^2 * (y.msq:ℝ) := by
        rw [mul_pow, neg_pow]
        rw [hsy2]
        ring
      constructor
      · intro h
        have h' : (y.num:ℝ)^2 * (x.msq:ℝ) ≤ (x.num:ℝ)^2 * (y.msq:ℝ) := by exact_mod_cast h
        have hsqle : (-(y.num:ℝ) * Real.sqrt (x.msq : ℝ)) ^ 2 ≤
            (-(x.num:ℝ) * Real.sqrt (y.msq : ℝ)) ^ 2 := by
          rw [hsq, hsq'] ; exact h'
        have := (pow_le_pow_iff_left₀ hB hA (two_ne_zero)).mp hsqle
        linarith
      · intro h
        have hle : -(y.num:ℝ) * Real.sqrt (x.msq : ℝ) ≤
            -(x.num:ℝ) * Real.sqrt (y.msq : ℝ) := by linarith
        have hsqle := (pow_le_pow_iff_left₀ hB hA (two_ne_zero)).mpr hle
        rw [hsq, hsq'] at hsqle
        exact_mod_cast hsqle
  · have hxpos : (0:ℝ) < (x.num:ℝ) := by exact_mod_cast lt_of_not_le hx
    by_cases hy : y.num ≤ 0
    · simp only [hx, if_false, hy, if_true, Bool.false_eq_true, false_iff]
      have h2 : (y.num:ℝ) * Real.sqrt (x.msq : ℝ) ≤ 0 :=
        mul_nonpos_of_nonpos_of_nonneg (by exact_mod_cast hy) hsx.le
      have h1 : 0 < (x.num:ℝ) * Real.sqrt (y.msq : ℝ) := mul_pos hxpos hsy
      exact not_le.mpr (lt_of_le_of_lt h2 h1)
    · simp only [hx, if_false, hy, decide_eq_true_eq]
      have hypos : (0:ℝ) < (y.num:ℝ) := by exact_mod_cast lt_of_not_le hy
      have hA : (0:ℝ) ≤ (x.num:ℝ) * Real.sqrt (y.msq : ℝ) :=
        mul_nonneg hxpos.le hsy.le
      have hB : (0:ℝ) ≤ (y.num:ℝ) * Real.sqrt (x.msq : ℝ) :=
        mul_nonneg hypos.le hsx.le
      have hsq : ((x.num:ℝ) * Real.sqrt (y.msq : ℝ)) ^ 2 = (x.num:ℝ)^2 * (y.msq:ℝ) := by
        rw [mul_pow, hsy2]
      have hsq' : ((y.num:ℝ) * Real.sqrt (x.msq : ℝ)) ^ 2 = (y.num:ℝ)^2 * (x.msq:ℝ) := by
        rw [mul_pow, hsx2]
      constructor
      · intro h
        have h' : (x.num:ℝ)^2 * (y.msq:ℝ) ≤ (y.num:ℝ)^2 * (x.msq:ℝ) := by exact_mod_cast h
        have hsqle : ((x.num:ℝ) * Real.sqrt (y.msq : ℝ)) ^ 2 ≤
            ((y.num:ℝ) * Real.sqrt (x.msq : ℝ)) ^ 2 := by
          rw [hsq, hsq'] ; exact h'
        exact (pow_le_pow_iff_left₀ hA hB (two_ne_zero)).mp hsqle
      · intro h
        have hsqle := (pow_le_pow_iff_left₀ hA hB (two_ne_zero)).mpr h
        rw [hsq, hsq'] at hsqle
        exact_mod_cast hsqle

theorem mem_foldl_insertBy (r : α → α → Bool) (l acc : List α) (a : α) :
    a ∈ l.foldl (fun acc x => insertBy r x acc) acc ↔ a ∈ acc ∨ a ∈ l := by
  induction l generalizing acc with
  | nil => simp
  | cons x xs ih =>
    simp only [List.foldl_cons, ih, mem_insertBy, List.mem_cons]
    tauto

theorem mem_sortByStable (r : α → α → Bool) (l : List α) (a : α) :
    a ∈ sortByStable r l ↔ a ∈ l := by
  simp [sortByStable, mem_foldl_insertBy]

/-- C8: every search result scores at least the threshold, results come
in descending similarity order with at most `limit` entries (clamped to
100, default 10); cosine similarity of two different-length vectors is 0,
and it is 0 when either vector has zero magnitude. -/
theorem c8_memorySearch_spec (now : Int) (queryEmbedding : List ℚ)
    (limitOpt : Option Nat) (thresholdOpt : Option ℚ) (rows : List MemoryRow) :
    (∀ x ∈ memorySearch now queryEmbedding limitOpt thresholdOpt rows,
      simLeB (Sim.ofRat (thresholdOpt.getD (1/2))) x.similarity = true) ∧
    ((memorySearch now queryEmbedding limitOpt thresholdOpt rows).Pairwise
      (fun a b => simLeB b.similarity a.similarity = true)) ∧
    ((memorySearch now queryEmbedding limitOpt thresholdOpt rows).length ≤
      min (limitOpt.getD 10) 100) ∧
    (∀ a b : List ℚ, a.length ≠ b.length → cosineSimilarity a b = Sim.zero) ∧
    (∀ a b : List ℚ, sumSquares a = 0 ∨ sumSquares b = 0 →
      cosineSimilarity a b = Sim.zero) := by
  have htot : ∀ a b : ScoredResult,
      simLeB b.similarity a.similarity = true ∨
      simLeB a.similarity b.similarity = true :=
    fun a b => (simLeB_total b.similarity a.similarity)
  have htrans : ∀ a b c : ScoredResult,
      simLeB b.similarity a.similarity = true →
      simLeB c.similarity b.similarity = true →
      simLeB c.similarity a.similarity = true :=
    fun a b c h1 h2 => simLeB_trans c.similarity b.similarity a.similarity h2 h1
  refine ⟨?_, ?_, ?_, ?_, ?_⟩
  · intro x hx
    unfold memorySearch at hx
    dsimp only at hx
    have hx1 := List.mem_of_mem_take hx
    rw [mem_sortByStable] at hx1
    rcases List.mem_filterMap.mp hx1 with ⟨r, hr, hf⟩
    rcases hemb : r.embedding with _ | emb
    · rw [hemb] at hf ; cases hf
    · rw [hemb] at hf
      dsimp only at hf
      by_cases hlt : simLtB (cosineSimilarity queryEmbedding emb)
          (Sim.ofRat (thresholdOpt.getD (1/2))) = true
      · rw [if_pos hlt] at hf ; cases hf
      · rw [if_neg hlt] at hf
        injection hf with hf
        subst hf
        simp only [simLtB, Bool.not_eq_true, Bool.not_eq_false] at hlt
        simpa using hlt
  · unfold memorySearch
    dsimp only
    exact (pairwise_sortByStable
      (fun a b : ScoredResult => simLeB b.similarity a.similarity)
      (fun a b => simLeB_total b.similarity a.similarity)
      (fun a b c h1 h2 => simLeB_trans c.similarity b.similarity a.similarity h2 h1)
      _).sublist (List.take_sublist _ _)
  · unfold memorySearch
    dsimp only
    exact List.length_take_le _ _
  · intro a b hne
    unfold cosineSimilarity
    rw [if_pos hne]
  · intro a b hzero
    have hz : sumSquares a * sumSquares b = 0 := by
      rcases hzero with h | h
      · rw [h, zero_mul]
      · rw [h, mul_zero]
    unfold cosineSimilarity
    by_cases hlen : a.length ≠ b.length
    · rw [if_pos hlen]
    · rw [if_neg hlen, dif_pos hz]

/-- Witness for C8's cosine guard cases at concrete vectors. -/
theorem c8_witness :
    cosineSimilarity [(1 : ℚ)] [1, 2] = Sim.zero ∧
    cosineSimilarity [(0 : ℚ)] [1] = Sim.zero := by
  have h := c8_memorySearch_spec 0 [] none none []
  constructor
  · exact h.2.2.2.1 [(1 : ℚ)] [1, 2] (by norm_num)
  · exact h.2.2.2.2 [(0 : ℚ)] [1] (Or.inl (by norm_num [sumSquares]))

